import Mathlib

/-!
Verification development for the `kops` repository: a background daemon
(`kopsd`) with a CLI front end (`kopsctl`) that mirrors Kubernetes pod state
across clusters and serves it over a length-framed binary RPC channel.

The Lean definitions below are shallow embeddings of the Rust source:

* `Sso.*`     embeds `crates/kops_aws_sso/src/lib.rs` (`login_device_flow`),
* `Eks.*`     embeds `crates/kops_aws_eks/src/lib.rs` (`create_cluster_token`),
* `Wire.*`    embeds `crates/kops_protocol/src/wire.rs` and the
              `Request`/`Response` data model of `crates/kops_protocol/src/lib.rs`
              together with the bincode standard encoding they derive,
* `Handler.*` embeds `kopsd/src/handler.rs` (`handle_pods`, `handle_env`,
              `handle_login`, `start_clusters_for_profile`).

Machine integers are modelled as `Nat`/`Int` with explicit bounds or `% 2^w`
where overflow matters; Rust strings on the wire are modelled as their UTF-8
byte sequences (`List Nat`); fallible code returns `Option`/`Except`.
-/

namespace Sso

/-- Result of one `create_token` call against the OIDC broker, as classified
by `login_device_flow`: either `Ok(out)` (whose `access_token()` is optional)
or an error carrying a service error `code` and message. -/
inductive CreateTokenResult where
  | ok (accessToken : Option String)
  | err (code : String) (msg : String)
deriving DecidableEq

/-- Outcome of the bounded polling `for` loop in `login_device_flow`:
the loop either breaks with the (optional) access token of a successful
response, exhausts its attempt budget with `access_token` still `None`,
or returns early from the whole login with a fatal error message. -/
inductive PollOutcome where
  | token (t : Option String)
  | budgetExhausted
  | fatal (msg : String)
deriving DecidableEq

/-- The attempt bound of `login_device_flow`:
`let max_attempts = expires_in / interval_secs + 1;` with `u64` operands.
Rust `u64` division by zero panics; the panic is modelled as `none`. -/
def maxAttemptsChecked (expiresIn intervalSecs : Nat) : Option Nat :=
  if intervalSecs = 0 then none else some (expiresIn / intervalSecs + 1)

/-- The polling loop body of `login_device_flow`, run with a decreasing
attempt budget `fuel`. `oracle i` is the broker's response to the `i`-th
`create_token` call. Returns the outcome, the number of attempts made, and
the trace of sleep durations (seconds) in order.

Mirrors: success breaks with `out.access_token()`;
`AuthorizationPendingException` sleeps `interval_secs` and continues;
`SlowDownException` does `interval_secs += 5` then sleeps and continues;
`ExpiredTokenException` and any other code return an error from the login. -/
def pollLoop (oracle : Nat → CreateTokenResult) (idx interval : Nat) :
    Nat → PollOutcome × Nat × List Nat
  | 0 => (.budgetExhausted, 0, [])
  | fuel + 1 =>
    match oracle idx with
    | .ok t => (.token t, 1, [])
    | .err code msg =>
      if code = "AuthorizationPendingException" then
        let r := pollLoop oracle (idx + 1) interval fuel
        (r.1, r.2.1 + 1, interval :: r.2.2)
      else if code = "SlowDownException" then
        let r := pollLoop oracle (idx + 1) (interval + 5) fuel
        (r.1, r.2.1 + 1, (interval + 5) :: r.2.2)
      else if code = "ExpiredTokenException" then
        (.fatal ("Device authorization expired (ExpiredTokenException): " ++ msg), 1, [])
      else
        (.fatal ("CreateToken failed: " ++ code ++ ": " ++ msg), 1, [])

/-- The access-token phase of `login_device_flow`: compute `max_attempts`
once from the broker-supplied `expires_in` and initial `interval`, run the
polling loop, then `access_token.ok_or_else(...)`. `none` models the `u64`
division-by-zero panic when `interval = 0`. Returns the login-phase result,
the number of `create_token` attempts, and the sleep trace. -/
def loginPollRun (oracle : Nat → CreateTokenResult) (fuel interval : Nat) :
    Except String String × Nat × List Nat :=
  match pollLoop oracle 0 interval fuel with
  | (.token (some t), n, s) => (.ok t, n, s)
  | (.token none, n, s) =>
    (.error "did not obtain access_token before timeout", n, s)
  | (.budgetExhausted, n, s) =>
    (.error "did not obtain access_token before timeout", n, s)
  | (.fatal m, n, s) => (.error m, n, s)

/-- The access-token phase with the bound computation: `none` models the
`u64` division-by-zero panic when `interval = 0`. -/
def loginPollPhase (oracle : Nat → CreateTokenResult) (expiresIn interval : Nat) :
    Option (Except String String × Nat × List Nat) :=
  (maxAttemptsChecked expiresIn interval).map
    (fun fuel => loginPollRun oracle fuel interval)

/-- C2: classification of each broker response by the device-flow poll loop:
success breaks out of the loop with the token and no sleep; "authorization
pending" sleeps the current interval and retries with the interval unchanged;
"slow down" adds exactly 5 seconds to the interval, sleeps the new interval,
and retries with the grown interval; "expired" aborts the login with an
error; any other error code aborts the login with an error. -/
theorem pollLoop_classifies (oracle : Nat → CreateTokenResult)
    (idx interval fuel : Nat) :
    (∀ t, oracle idx = .ok t →
      pollLoop oracle idx interval (fuel + 1) = (.token t, 1, [])) ∧
    (∀ m, oracle idx = .err "AuthorizationPendingException" m →
      pollLoop oracle idx interval (fuel + 1) =
        (let r := pollLoop oracle (idx + 1) interval fuel
         (r.1, r.2.1 + 1, interval :: r.2.2))) ∧
    (∀ m, oracle idx = .err "SlowDownException" m →
      pollLoop oracle idx interval (fuel + 1) =
        (let r := pollLoop oracle (idx + 1) (interval + 5) fuel
         (r.1, r.2.1 + 1, (interval + 5) :: r.2.2))) ∧
    (∀ m, oracle idx = .err "ExpiredTokenException" m →
      pollLoop oracle idx interval (fuel + 1) =
        (.fatal ("Device authorization expired (ExpiredTokenException): " ++ m), 1, [])) ∧
    (∀ c m, oracle idx = .err c m →
      c ≠ "AuthorizationPendingException" → c ≠ "SlowDownException" →
      c ≠ "ExpiredTokenException" →
      pollLoop oracle idx interval (fuel + 1) =
        (.fatal ("CreateToken failed: " ++ c ++ ": " ++ m), 1, [])) := by
  refine ⟨?_, ?_, ?_, ?_, ?_⟩
  · intro t h; simp [pollLoop, h]
  · intro m h; simp [pollLoop, h]
  · intro m h; simp [pollLoop, h]
  · intro m h; simp [pollLoop, h]
  · intro c m h h1 h2 h3; simp [pollLoop, h, h1, h2, h3]

/-- Witness for `pollLoop_classifies` at a concrete oracle, discharging each
hypothesis at a concrete input. -/
theorem pollLoop_classifies_witness :
    (pollLoop (fun _ => .ok (some "T")) 0 7 3 = (.token (some "T"), 1, [])) ∧
    (pollLoop (fun _ => .err "AuthorizationPendingException" "") 0 7 3 =
      (let r := pollLoop (fun _ => .err "AuthorizationPendingException" "") 1 7 2
       (r.1, r.2.1 + 1, 7 :: r.2.2))) ∧
    (pollLoop (fun _ => .err "SlowDownException" "") 0 7 3 =
      (let r := pollLoop (fun _ => .err "SlowDownException" "") 1 12 2
       (r.1, r.2.1 + 1, 12 :: r.2.2))) ∧
    (pollLoop (fun _ => .err "ExpiredTokenException" "m") 0 7 3 =
      (.fatal ("Device authorization expired (ExpiredTokenException): " ++ "m"), 1, [])) ∧
    (pollLoop (fun _ => .err "AccessDeniedException" "m") 0 7 3 =
      (.fatal ("CreateToken failed: " ++ "AccessDeniedException" ++ ": " ++ "m"), 1, [])) :=
  ⟨(pollLoop_classifies (fun _ => .ok (some "T")) 0 7 2).1 (some "T") rfl,
   (pollLoop_classifies (fun _ => .err "AuthorizationPendingException" "") 0 7 2).2.1 "" rfl,
   (pollLoop_classifies (fun _ => .err "SlowDownException" "") 0 7 2).2.2.1 "" rfl,
   (pollLoop_classifies (fun _ => .err "ExpiredTokenException" "m") 0 7 2).2.2.2.1 "m" rfl,
   (pollLoop_classifies (fun _ => .err "AccessDeniedException" "m") 0 7 2).2.2.2.2 "AccessDeniedException" "m" rfl
     (by decide) (by decide) (by decide)⟩

/-- The poll loop makes at most `fuel` attempts, whatever the responses. -/
theorem pollLoop_attempts_le (oracle : Nat → CreateTokenResult) :
    ∀ fuel idx interval, (pollLoop oracle idx interval fuel).2.1 ≤ fuel := by
  intro fuel
  induction fuel with
  | zero => intro idx interval; simp [pollLoop]
  | succ n ih =>
    intro idx interval
    simp only [pollLoop]
    cases oracle idx with
    | ok t => simp
    | err code msg =>
      by_cases h1 : code = "AuthorizationPendingException"
      · simp only [h1, if_pos rfl]
        exact Nat.succ_le_succ (ih (idx + 1) interval)
      · by_cases h2 : code = "SlowDownException"
        · simp only [h1, if_neg h1, h2, if_pos rfl]
          exact Nat.succ_le_succ (ih (idx + 1) (interval + 5))
        · by_cases h3 : code = "ExpiredTokenException"
          · simp [h1, h2, h3]
          · simp [h1, h2, h3]

/-- An oracle answering "authorization pending" three times, then success. -/
def pendingThriceOracle : Nat → CreateTokenResult :=
  fun i => if i < 3 then .err "AuthorizationPendingException" "" else .ok (some "T")

/-- C3 counterexample: with `expires_in = 5` and initial `interval = 2`, the
code computes its attempt budget as `5 / 2 + 1 = 3` (integer floor division),
not `ceil(5 / 2) + 1 = 4` as the claim states; behaviourally, against a
broker that answers "pending" three times and then succeeds, the login fails
with a timeout error after 3 attempts, whereas a loop budgeted with the
claimed `ceil`-based bound of 4 attempts would obtain the token. -/
theorem maxAttempts_not_ceil :
    maxAttemptsChecked 5 2 = some 3 ∧ (5 + 2 - 1) / 2 + 1 = 4 ∧ (3 : Nat) ≠ 4 ∧
    loginPollPhase pendingThriceOracle 5 2 =
      some (.error "did not obtain access_token before timeout", 3, [2, 2, 2]) ∧
    pollLoop pendingThriceOracle 0 2 4 = (.token (some "T"), 4, [2, 2, 2]) :=
  ⟨by decide, by decide, by decide, rfl, by decide⟩

/-- C3 (amended): the attempt budget is computed once, before the first
attempt, as `floor(validity_window / initial_interval) + 1`, and the loop
makes at most that many token-exchange attempts for every broker response
sequence (including arbitrary "slow down" growth of the interval); the
budget is a function of the initial values only and is never recomputed. -/
theorem loginPollPhase_attempt_bound (oracle : Nat → CreateTokenResult)
    (expiresIn interval : Nat) (h : 0 < interval) :
    ∃ r, loginPollPhase oracle expiresIn interval = some r ∧
      r.2.1 ≤ expiresIn / interval + 1 := by
  have hne : interval ≠ 0 := Nat.pos_iff_ne_zero.mp h
  have hb : maxAttemptsChecked expiresIn interval = some (expiresIn / interval + 1) := by
    simp [maxAttemptsChecked, hne]
  refine ⟨loginPollRun oracle (expiresIn / interval + 1) interval, ?_, ?_⟩
  · simp [loginPollPhase, hb]
  · have hle := pollLoop_attempts_le oracle (expiresIn / interval + 1) 0 interval
    unfold loginPollRun
    rcases hp : pollLoop oracle 0 interval (expiresIn / interval + 1) with ⟨o, n, s⟩
    rw [hp] at hle
    cases o with
    | token t => cases t <;> simpa using hle
    | budgetExhausted => simpa using hle
    | fatal m => simpa using hle

/-- Witness for `loginPollPhase_attempt_bound` at a concrete input. -/
theorem loginPollPhase_attempt_bound_witness :
    ∃ r, loginPollPhase pendingThriceOracle 30 7 = some r ∧ r.2.1 ≤ 30 / 7 + 1 :=
  loginPollPhase_attempt_bound pendingThriceOracle 30 7 (by decide)

/-- C10: the attempt-bound computation `expires_in / interval_secs + 1` is a
`u64` division by the broker-supplied interval with no zero guard: at
interval 0 it divides by zero (modelled as `none`, mirroring the Rust
panic), and it is well-defined exactly under the precondition that the
interval is strictly positive. -/
theorem maxAttempts_div_by_zero (expiresIn interval : Nat) :
    maxAttemptsChecked expiresIn 0 = none ∧
    (0 < interval →
      maxAttemptsChecked expiresIn interval = some (expiresIn / interval + 1)) := by
  constructor
  · simp [maxAttemptsChecked]
  · intro h
    simp [maxAttemptsChecked, Nat.pos_iff_ne_zero.mp h]

/-- Witness for `maxAttempts_div_by_zero` at a concrete input. -/
theorem maxAttempts_div_by_zero_witness :
    maxAttemptsChecked 600 0 = none ∧
    maxAttemptsChecked 600 5 = some 121 :=
  ⟨(maxAttempts_div_by_zero 600 5).1,
   (maxAttempts_div_by_zero 600 5).2 (by decide)⟩

end Sso

namespace Eks

/-- AWS credentials as used by `create_cluster_token` (resolved from the
SDK config's credentials provider). -/
structure Credentials where
  accessKeyId : String
  secretAccessKey : String
  sessionToken : Option String
deriving DecidableEq

/-- `aws_sigv4::http_request::SignatureLocation`. -/
inductive SignatureLocation where
  | headers
  | queryParams
deriving DecidableEq

/-- The fields of `aws_sigv4::http_request::SigningSettings` that
`create_cluster_token` sets. -/
structure SigningSettings where
  expiresIn : Option Nat
  signatureLocation : SignatureLocation
deriving DecidableEq

/-- `SigningSettings::default()`: no expiry, signature in headers. -/
def SigningSettings.sdkDefault : SigningSettings :=
  { expiresIn := none, signatureLocation := .headers }

/-- `aws_sigv4::sign::v4::SigningParams` as built by `create_cluster_token`
(identity, region, service name, signing time in epoch seconds, settings). -/
structure SigningParams where
  identity : Credentials
  region : String
  name : String
  time : Nat
  settings : SigningSettings

/-- `aws_sigv4::http_request::SignableRequest`: method, URI and the custom
headers of the request to be presigned (the body is empty). -/
structure SignableRequest where
  method : String
  uri : String
  headers : List (String × String)

/-- UTF-8 encoding of one scalar value. -/
def charUtf8 (c : Char) : List Nat :=
  let n := c.toNat
  if n < 0x80 then [n]
  else if n < 0x800 then [0xC0 + n / 64, 0x80 + n % 64]
  else if n < 0x10000 then [0xE0 + n / 4096, 0x80 + n / 64 % 64, 0x80 + n % 64]
  else [0xF0 + n / 262144, 0x80 + n / 4096 % 64, 0x80 + n / 64 % 64, 0x80 + n % 64]

/-- The UTF-8 bytes of a string (a Rust `String`/`str` as a byte sequence). -/
def utf8Bytes (s : String) : List Nat := s.data.flatMap charUtf8

/-- The URL-safe base64 alphabet (`base64::engine::general_purpose::URL_SAFE_NO_PAD`). -/
def b64UrlAlphabet : List Char :=
  "ABCDEFGHIJKLMNOPQRSTUVWXYZabcdefghijklmnopqrstuvwxyz0123456789-_".data

/-- The `n`-th character of the URL-safe base64 alphabet. -/
def b64Char (n : Nat) : Char := b64UrlAlphabet.getD n '?'

/-- Base64 encoding of a byte sequence, URL-safe alphabet, no padding. -/
def base64UrlNoPadAux : List Nat → List Char
  | [] => []
  | [b0] => [b64Char (b0 / 4), b64Char (b0 % 4 * 16)]
  | [b0, b1] =>
    [b64Char (b0 / 4), b64Char (b0 % 4 * 16 + b1 / 16), b64Char (b1 % 16 * 4)]
  | b0 :: b1 :: b2 :: rest =>
    b64Char (b0 / 4) :: b64Char (b0 % 4 * 16 + b1 / 16) ::
      b64Char (b1 % 16 * 4 + b2 / 64) :: b64Char (b2 % 64) ::
      base64UrlNoPadAux rest

/-- `URL_SAFE_NO_PAD.encode` on the UTF-8 bytes of a string. -/
def base64UrlNoPad (bs : List Nat) : String := ⟨base64UrlNoPadAux bs⟩

/-- `create_cluster_token` of `crates/kops_aws_eks/src/lib.rs`, with the
`aws_sigv4` signer abstracted as the collaborator `sign` (mapping the
signing parameters and the signable request to the final presigned URI,
i.e. the composition of `aws_sigv4::http_request::sign` with
`apply_to_request_http1x`): set a 60-second expiry and query-parameter
signature location on default settings, build the STS `GetCallerIdentity`
URL for the region, attach the single custom header `x-k8s-aws-id:
<cluster_name>`, presign, and render `k8s-aws-v1.<base64url-no-pad(uri)>`. -/
def create_cluster_token (sign : SigningParams → SignableRequest → String)
    (credentials : Credentials) (region : String) (now : Nat)
    (cluster_name : String) : String :=
  let signing_settings :=
    { SigningSettings.sdkDefault with
        expiresIn := some 60, signatureLocation := .queryParams }
  let url := "https://sts." ++ region ++
    ".amazonaws.com/?Action=GetCallerIdentity&Version=2011-06-15"
  let signing_params : SigningParams :=
    { identity := credentials, region := region, name := "sts", time := now,
      settings := signing_settings }
  let signable_request : SignableRequest :=
    { method := "GET", uri := url, headers := [("x-k8s-aws-id", cluster_name)] }
  let uri := sign signing_params signable_request
  "k8s-aws-v1." ++ base64UrlNoPad (utf8Bytes uri)

theorem getD_mem_or_default {α : Type} (l : List α) (n : Nat) (d : α) :
    l.getD n d ∈ l ∨ l.getD n d = d := by
  induction l generalizing n with
  | nil => right; simp [List.getD]
  | cons a t ih =>
    cases n with
    | zero => left; simp
    | succ m =>
      rcases ih m with h | h
      · left; simp only [List.getD_cons_succ]; exact List.mem_cons_of_mem a h
      · right; simpa using h

theorem b64Char_ne_pad (n : Nat) : b64Char n ≠ '=' := by
  intro h
  rw [show b64Char n = b64UrlAlphabet.getD n '?' from rfl] at h
  rcases getD_mem_or_default b64UrlAlphabet n '?' with hm | hd
  · rw [h] at hm; revert hm; decide
  · rw [h] at hd; exact absurd hd (by decide)

theorem base64UrlNoPadAux_no_pad (bs : List Nat) :
    '=' ∉ base64UrlNoPadAux bs := by
  induction bs using base64UrlNoPadAux.induct with
  | case1 => simp [base64UrlNoPadAux]
  | case2 b0 =>
    simp only [base64UrlNoPadAux, List.mem_cons, List.not_mem_nil, or_false]
    push_neg
    exact ⟨fun h => b64Char_ne_pad _ h.symm, fun h => b64Char_ne_pad _ h.symm⟩
  | case3 b0 b1 =>
    simp only [base64UrlNoPadAux, List.mem_cons, List.not_mem_nil, or_false]
    push_neg
    exact ⟨fun h => b64Char_ne_pad _ h.symm, fun h => b64Char_ne_pad _ h.symm,
      fun h => b64Char_ne_pad _ h.symm⟩
  | case4 b0 b1 b2 rest ih =>
    simp only [base64UrlNoPadAux, List.mem_cons]
    push_neg
    exact ⟨fun h => b64Char_ne_pad _ h.symm, fun h => b64Char_ne_pad _ h.symm,
      fun h => b64Char_ne_pad _ h.symm, fun h => b64Char_ne_pad _ h.symm, ih⟩

/-- C1: for every credential set, region, signing time and cluster identity,
the derived bearer token is exactly `"k8s-aws-v1."` followed by the
base64url-no-padding encoding of the presigned `GetCallerIdentity` URL,
where the signer is invoked with the cluster identity as the sole custom
header `x-k8s-aws-id`, the signature carried in query parameters, and a
60-second expiry window; and the base64 tail carries no `=` padding. -/
theorem create_cluster_token_spec (sign : SigningParams → SignableRequest → String)
    (credentials : Credentials) (region : String) (now : Nat)
    (cluster_name : String) :
    create_cluster_token sign credentials region now cluster_name =
      "k8s-aws-v1." ++ base64UrlNoPad (utf8Bytes (sign
        { identity := credentials, region := region, name := "sts", time := now,
          settings := { expiresIn := some 60, signatureLocation := .queryParams } }
        { method := "GET",
          uri := "https://sts." ++ region ++
            ".amazonaws.com/?Action=GetCallerIdentity&Version=2011-06-15",
          headers := [("x-k8s-aws-id", cluster_name)] })) ∧
    '=' ∉ (base64UrlNoPad (utf8Bytes (sign
        { identity := credentials, region := region, name := "sts", time := now,
          settings := { expiresIn := some 60, signatureLocation := .queryParams } }
        { method := "GET",
          uri := "https://sts." ++ region ++
            ".amazonaws.com/?Action=GetCallerIdentity&Version=2011-06-15",
          headers := [("x-k8s-aws-id", cluster_name)] }))).data :=
  ⟨rfl, base64UrlNoPadAux_no_pad _⟩

/-- Witness for `create_cluster_token_spec` at a concrete signer (one that
appends a query signature to the URI), concrete credentials, region and
cluster identity. -/
theorem create_cluster_token_spec_witness :
    create_cluster_token (fun _ r => r.uri ++ "&X-Amz-Signature=abc")
        { accessKeyId := "AKIA", secretAccessKey := "s3cr3t", sessionToken := some "tok" }
        "us-east-1" 1700000000 "eks-platform-dev" =
      "k8s-aws-v1." ++ base64UrlNoPad (utf8Bytes
        ("https://sts.us-east-1.amazonaws.com/?Action=GetCallerIdentity&Version=2011-06-15&X-Amz-Signature=abc")) ∧
    '=' ∉ (base64UrlNoPad (utf8Bytes
        ("https://sts.us-east-1.amazonaws.com/?Action=GetCallerIdentity&Version=2011-06-15&X-Amz-Signature=abc"))).data :=
  create_cluster_token_spec (fun _ r => r.uri ++ "&X-Amz-Signature=abc")
    { accessKeyId := "AKIA", secretAccessKey := "s3cr3t", sessionToken := some "tok" }
    "us-east-1" 1700000000 "eks-platform-dev"

end Eks

namespace Wire

/-- A byte stream (each element a byte value). -/
abbrev Bytes := List Nat

/-- A Rust `String` on the wire, modelled as its UTF-8 byte sequence. -/
abbrev WStr := List Nat

/-- Little-endian bytes of `n`, fixed width `k`. -/
def leBytes : Nat → Nat → Bytes
  | 0, _ => []
  | k + 1, n => n % 256 :: leBytes k (n / 256)

/-- Value of a little-endian byte sequence. -/
def leVal : Bytes → Nat
  | [] => 0
  | b :: bs => b + 256 * leVal bs

/-- `u32::to_be_bytes` (big-endian), applied to `n % 2^32`. -/
def beBytes4 (n : Nat) : Bytes :=
  [n / 2 ^ 24 % 256, n / 2 ^ 16 % 256, n / 2 ^ 8 % 256, n % 256]

/-- `u32::from_be_bytes` on a 4-byte sequence. -/
def beVal4 (bs : Bytes) : Nat := bs.foldl (fun acc b => acc * 256 + b) 0

/-- bincode standard-config variable-width integer encoding: values below
251 in a single byte, then markers 251/252/253/254 followed by the value as
a little-endian `u16`/`u32`/`u64`/`u128`. -/
def varintEnc (n : Nat) : Bytes :=
  if n < 251 then [n]
  else if n < 2 ^ 16 then 251 :: leBytes 2 n
  else if n < 2 ^ 32 then 252 :: leBytes 4 n
  else if n < 2 ^ 64 then 253 :: leBytes 8 n
  else 254 :: leBytes 16 n

/-- Consume exactly `k` bytes of the stream, or fail (end of input). -/
def readN (k : Nat) (bs : Bytes) : Option (Bytes × Bytes) :=
  if k ≤ bs.length then some (bs.take k, bs.drop k) else none

/-- bincode standard-config variable-width integer decoding. -/
def varintDec (bs : Bytes) : Option (Nat × Bytes) :=
  match bs with
  | [] => none
  | b :: rest =>
    if b < 251 then some (b, rest)
    else if b = 251 then (readN 2 rest).map (fun p => (leVal p.1, p.2))
    else if b = 252 then (readN 4 rest).map (fun p => (leVal p.1, p.2))
    else if b = 253 then (readN 8 rest).map (fun p => (leVal p.1, p.2))
    else if b = 254 then (readN 16 rest).map (fun p => (leVal p.1, p.2))
    else none

/-- bincode `bool`: one byte, `0` or `1`. -/
def encBool (b : Bool) : Bytes := [if b then 1 else 0]

def decBool (bs : Bytes) : Option (Bool × Bytes) :=
  match bs with
  | 0 :: r => some (false, r)
  | 1 :: r => some (true, r)
  | _ => none

/-- bincode `String`: length as varint `u64`, then the UTF-8 bytes. -/
def encStr (s : WStr) : Bytes := varintEnc s.length ++ s

def decStr (bs : Bytes) : Option (WStr × Bytes) :=
  (varintDec bs).bind (fun p => readN p.1 p.2)

/-- bincode `Option<T>`: one tag byte `0`/`1`, then the payload if `Some`. -/
def encOpt {α : Type} (encA : α → Bytes) : Option α → Bytes
  | none => [0]
  | some a => 1 :: encA a

def decOpt {α : Type} (decA : Bytes → Option (α × Bytes)) (bs : Bytes) :
    Option (Option α × Bytes) :=
  match bs with
  | 0 :: r => some (none, r)
  | 1 :: r => (decA r).map (fun p => (some p.1, p.2))
  | _ => none

/-- bincode `Vec<T>`: length as varint `u64`, then the elements in order. -/
def encList {α : Type} (encA : α → Bytes) (l : List α) : Bytes :=
  varintEnc l.length ++ l.flatMap encA

def decListAux {α : Type} (decA : Bytes → Option (α × Bytes)) :
    Nat → Bytes → Option (List α × Bytes)
  | 0, bs => some ([], bs)
  | k + 1, bs =>
    (decA bs).bind (fun p =>
      (decListAux decA k p.2).map (fun q => (p.1 :: q.1, q.2)))

def decList {α : Type} (decA : Bytes → Option (α × Bytes)) (bs : Bytes) :
    Option (List α × Bytes) :=
  (varintDec bs).bind (fun p => decListAux decA p.1 p.2)

/-- bincode signed-integer zigzag mapping (`i32` → unsigned, then varint). -/
def zigzag (v : Int) : Nat :=
  if 0 ≤ v then 2 * v.toNat else 2 * (-v).toNat - 1

def unzigzag (u : Nat) : Int :=
  if u % 2 = 0 then ((u / 2 : Nat) : Int) else -(((u + 1) / 2 : Nat) : Int)

def encI32 (v : Int) : Bytes := varintEnc (zigzag v)

def decI32 (bs : Bytes) : Option (Int × Bytes) :=
  (varintDec bs).map (fun p => (unzigzag p.1, p.2))

/-- `kops_protocol::PodsRequest`. -/
structure PodsRequest where
  cluster : Option WStr
  namespace' : Option WStr
  failed_only : Bool
deriving DecidableEq

/-- `kops_protocol::EnvRequest`. -/
structure EnvRequest where
  cluster : Option WStr
  namespace' : WStr
  pod : WStr
  container : Option WStr
  filter_regex : Option WStr
deriving DecidableEq

/-- `kops_protocol::EnvEntry`. -/
structure EnvEntry where
  name : WStr
  value : Option WStr
deriving DecidableEq

/-- `kops_protocol::PodSummary` (the wire form; `restart_count` is an `i32`). -/
structure PodSummary where
  cluster : WStr
  namespace' : WStr
  name : WStr
  phase : Option WStr
  reason : Option WStr
  message : Option WStr
  ready : Bool
  restart_count : Int
deriving DecidableEq

/-- Modelled from the spec: `kops_protocol::types::VersionInfo` (the module
`types.rs` is not under `src/`; §6 gives
`Version{daemon_version, protocol_version, git_sha: optional, build_date: optional}`). -/
structure VersionInfo where
  daemon_version : WStr
  protocol_version : WStr
  git_sha : Option WStr
  build_date : Option WStr
deriving DecidableEq

/-- `kops_protocol::Request` (the variants declared in `src/lib.rs`, in
declaration order: `Ping`, `Pods`, `Env`, `Version`). -/
inductive Request where
  | ping
  | pods (p : PodsRequest)
  | env (e : EnvRequest)
  | version
deriving DecidableEq

/-- `kops_protocol::Response` (declaration order: `Pong`, `Version`, `Pods`,
`EnvVars`, `Error`). -/
inductive Response where
  | pong
  | version (v : VersionInfo)
  | pods (pods : List PodSummary)
  | envVars (vars : List EnvEntry)
  | error (message : WStr)
deriving DecidableEq

def PodsRequest.enc (p : PodsRequest) : Bytes :=
  encOpt encStr p.cluster ++ encOpt encStr p.namespace' ++ encBool p.failed_only

def PodsRequest.dec (bs : Bytes) : Option (PodsRequest × Bytes) :=
  (decOpt decStr bs).bind (fun c =>
    (decOpt decStr c.2).bind (fun n =>
      (decBool n.2).map (fun f => (⟨c.1, n.1, f.1⟩, f.2))))

def EnvRequest.enc (e : EnvRequest) : Bytes :=
  encOpt encStr e.cluster ++ encStr e.namespace' ++ encStr e.pod ++
    encOpt encStr e.container ++ encOpt encStr e.filter_regex

def EnvRequest.dec (bs : Bytes) : Option (EnvRequest × Bytes) :=
  (decOpt decStr bs).bind (fun c =>
    (decStr c.2).bind (fun n =>
      (decStr n.2).bind (fun p =>
        (decOpt decStr p.2).bind (fun ct =>
          (decOpt decStr ct.2).map (fun f => (⟨c.1, n.1, p.1, ct.1, f.1⟩, f.2))))))

def EnvEntry.enc (e : EnvEntry) : Bytes :=
  encStr e.name ++ encOpt encStr e.value

def EnvEntry.dec (bs : Bytes) : Option (EnvEntry × Bytes) :=
  (decStr bs).bind (fun n =>
    (decOpt decStr n.2).map (fun v => (⟨n.1, v.1⟩, v.2)))

def PodSummary.enc (p : PodSummary) : Bytes :=
  encStr p.cluster ++ encStr p.namespace' ++ encStr p.name ++
    encOpt encStr p.phase ++ encOpt encStr p.reason ++ encOpt encStr p.message ++
    encBool p.ready ++ encI32 p.restart_count

def PodSummary.dec (bs : Bytes) : Option (PodSummary × Bytes) :=
  (decStr bs).bind (fun c =>
    (decStr c.2).bind (fun ns =>
      (decStr ns.2).bind (fun nm =>
        (decOpt decStr nm.2).bind (fun ph =>
          (decOpt decStr ph.2).bind (fun re =>
            (decOpt decStr re.2).bind (fun me =>
              (decBool me.2).bind (fun rd =>
                (decI32 rd.2).map (fun rc =>
                  (⟨c.1, ns.1, nm.1, ph.1, re.1, me.1, rd.1, rc.1⟩, rc.2)))))))))

def VersionInfo.enc (v : VersionInfo) : Bytes :=
  encStr v.daemon_version ++ encStr v.protocol_version ++
    encOpt encStr v.git_sha ++ encOpt encStr v.build_date

def VersionInfo.dec (bs : Bytes) : Option (VersionInfo × Bytes) :=
  (decStr bs).bind (fun d =>
    (decStr d.2).bind (fun p =>
      (decOpt decStr p.2).bind (fun g =>
        (decOpt decStr g.2).map (fun b => (⟨d.1, p.1, g.1, b.1⟩, b.2)))))

/-- bincode enum encoding: variant index as varint `u32`, then the fields. -/
def Request.enc : Request → Bytes
  | .ping => varintEnc 0
  | .pods p => varintEnc 1 ++ p.enc
  | .env e => varintEnc 2 ++ e.enc
  | .version => varintEnc 3

def Request.dec (bs : Bytes) : Option (Request × Bytes) :=
  (varintDec bs).bind (fun d =>
    match d.1 with
    | 0 => some (.ping, d.2)
    | 1 => (PodsRequest.dec d.2).map (fun p => (.pods p.1, p.2))
    | 2 => (EnvRequest.dec d.2).map (fun e => (.env e.1, e.2))
    | 3 => some (.version, d.2)
    | _ => none)

def Response.enc : Response → Bytes
  | .pong => varintEnc 0
  | .version v => varintEnc 1 ++ v.enc
  | .pods l => varintEnc 2 ++ encList PodSummary.enc l
  | .envVars l => varintEnc 3 ++ encList EnvEntry.enc l
  | .error m => varintEnc 4 ++ encStr m

def Response.dec (bs : Bytes) : Option (Response × Bytes) :=
  (varintDec bs).bind (fun d =>
    match d.1 with
    | 0 => some (.pong, d.2)
    | 1 => (VersionInfo.dec d.2).map (fun v => (.version v.1, v.2))
    | 2 => (decList PodSummary.dec d.2).map (fun l => (.pods l.1, l.2))
    | 3 => (decList EnvEntry.dec d.2).map (fun l => (.envVars l.1, l.2))
    | 4 => (decStr d.2).map (fun m => (.error m.1, m.2))
    | _ => none)

/-- A Rust `String`/`Vec` fits in a `usize` (64-bit): its length is below
`2^64`. -/
def wfStr (s : WStr) : Bool := s.length < 2 ^ 64

def wfOptStr : Option WStr → Bool
  | none => true
  | some s => wfStr s

/-- An `i32` value. -/
def wfI32 (v : Int) : Bool := -(2 ^ 31) ≤ v ∧ v < 2 ^ 31

def PodsRequest.wf (p : PodsRequest) : Bool :=
  wfOptStr p.cluster && wfOptStr p.namespace'

def EnvRequest.wf (e : EnvRequest) : Bool :=
  wfOptStr e.cluster && wfStr e.namespace' && wfStr e.pod &&
    wfOptStr e.container && wfOptStr e.filter_regex

def EnvEntry.wf (e : EnvEntry) : Bool :=
  wfStr e.name && wfOptStr e.value

def PodSummary.wf (p : PodSummary) : Bool :=
  wfStr p.cluster && wfStr p.namespace' && wfStr p.name &&
    wfOptStr p.phase && wfOptStr p.reason && wfOptStr p.message &&
    wfI32 p.restart_count

def VersionInfo.wf (v : VersionInfo) : Bool :=
  wfStr v.daemon_version && wfStr v.protocol_version &&
    wfOptStr v.git_sha && wfOptStr v.build_date

def Request.wf : Request → Bool
  | .ping => true
  | .pods p => p.wf
  | .env e => e.wf
  | .version => true

def Response.wf : Response → Bool
  | .pong => true
  | .version v => v.wf
  | .pods l => decide (l.length < 2 ^ 64) && l.all PodSummary.wf
  | .envVars l => decide (l.length < 2 ^ 64) && l.all EnvEntry.wf
  | .error m => wfStr m

/-- `kops_protocol::wire::WireError` (payloads elided). -/
inductive WireError where
  | io
  | binDecode
  | binEncode
deriving DecidableEq

/-- `write_message`: bincode-encode the message, then write the payload
length as a big-endian `u32` (`encoded.len() as u32`, i.e. truncated mod
`2^32`) followed by the payload. -/
def writeMessage {α : Type} (encA : α → Bytes) (m : α) : Bytes :=
  let encoded := encA m
  beBytes4 (encoded.length % 2 ^ 32) ++ encoded

/-- `read_message` on the byte stream the peer wrote before closing:
`read_exact` of the 4-byte length prefix, with `UnexpectedEof` mapped to a
clean `Ok(None)`; then `read_exact` of the payload, whose `UnexpectedEof`
propagates as an I/O error; then a bincode decode of the payload buffer
(trailing payload bytes are ignored, as by `decode_from_slice`). -/
def readMessage {α : Type} (decA : Bytes → Option (α × Bytes)) (stream : Bytes) :
    Except WireError (Option α) :=
  match readN 4 stream with
  | none => .ok none
  | some (szBytes, rest) =>
    match readN (beVal4 szBytes) rest with
    | none => .error .io
    | some (buf, _) =>
      match decA buf with
      | none => .error .binDecode
      | some (m, _) => .ok (some m)

theorem leBytes_length (k : Nat) : ∀ n, (leBytes k n).length = k := by
  induction k with
  | zero => intro n; rfl
  | succ m ih => intro n; simp [leBytes, ih]

theorem leVal_leBytes (k : Nat) : ∀ n, n < 256 ^ k → leVal (leBytes k n) = n := by
  induction k with
  | zero => intro n h; interval_cases n; rfl
  | succ m ih =>
    intro n h
    have hdiv : n / 256 < 256 ^ m := by
      rw [Nat.div_lt_iff_lt_mul (by norm_num : 0 < 256)]
      calc n < 256 ^ (m + 1) := h
        _ = 256 ^ m * 256 := by ring
    simp only [leBytes, leVal, ih (n / 256) hdiv]
    omega

theorem readN_exact (xs r : Bytes) : readN xs.length (xs ++ r) = some (xs, r) := by
  simp [readN, List.take_append, List.drop_append]

theorem readN_exact' (k : Nat) (xs r : Bytes) (h : xs.length = k) :
    readN k (xs ++ r) = some (xs, r) := by
  subst h; exact readN_exact xs r

theorem varint_rt (n : Nat) (h : n < 2 ^ 64) (r : Bytes) :
    varintDec (varintEnc n ++ r) = some (n, r) := by
  have h64 : n < 18446744073709551616 := by omega
  unfold varintEnc
  by_cases h1 : n < 251
  · simp [h1, varintDec]
  · by_cases h2 : n < 65536
    · have hv : n < 256 ^ 2 := by norm_num; omega
      simp [h1, h2, varintDec, readN_exact' 2 _ r (leBytes_length 2 n),
        leVal_leBytes 2 n hv]
    · by_cases h3 : n < 4294967296
      · have hv : n < 256 ^ 4 := by norm_num; omega
        simp [h1, h2, h3, varintDec, readN_exact' 4 _ r (leBytes_length 4 n),
          leVal_leBytes 4 n hv]
      · have hv : n < 256 ^ 8 := by norm_num; omega
        simp [h1, h2, h3, h64, varintDec, readN_exact' 8 _ r (leBytes_length 8 n),
          leVal_leBytes 8 n hv]

theorem bool_rt (b : Bool) (r : Bytes) : decBool (encBool b ++ r) = some (b, r) := by
  cases b <;> simp [encBool, decBool]

theorem str_rt (s : WStr) (h : wfStr s = true) (r : Bytes) :
    decStr (encStr s ++ r) = some (s, r) := by
  have hlen : s.length < 2 ^ 64 := by simpa [wfStr] using h
  simp [encStr, decStr, List.append_assoc, varint_rt s.length hlen, readN_exact]

theorem optStr_rt (o : Option WStr) (h : wfOptStr o = true) (r : Bytes) :
    decOpt decStr (encOpt encStr o ++ r) = some (o, r) := by
  cases o with
  | none => simp [encOpt, decOpt]
  | some s =>
    have hs : wfStr s = true := by simpa [wfOptStr] using h
    simp [encOpt, decOpt, str_rt s hs r]

theorem unzigzag_zigzag (v : Int) : unzigzag (zigzag v) = v := by
  by_cases h : 0 ≤ v
  · have hz : zigzag v = 2 * v.toNat := by simp [zigzag, h]
    rw [hz]
    unfold unzigzag
    rw [if_pos (by omega : 2 * v.toNat % 2 = 0)]
    omega
  · have hz : zigzag v = 2 * (-v).toNat - 1 := by simp [zigzag, h]
    rw [hz]
    unfold unzigzag
    have hpos : 1 ≤ (-v).toNat := by omega
    rw [if_neg (by omega : ¬ (2 * (-v).toNat - 1) % 2 = 0)]
    omega

theorem zigzag_lt (v : Int) (h : wfI32 v = true) : zigzag v < 2 ^ 64 := by
  have hb : -(2 ^ 31) ≤ v ∧ v < 2 ^ 31 := by simpa [wfI32] using h
  unfold zigzag
  by_cases h0 : 0 ≤ v
  · rw [if_pos h0]
    omega
  · rw [if_neg h0]
    omega

theorem i32_rt (v : Int) (h : wfI32 v = true) (r : Bytes) :
    decI32 (encI32 v ++ r) = some (v, r) := by
  simp [encI32, decI32, varint_rt (zigzag v) (zigzag_lt v h), unzigzag_zigzag]

theorem listAux_rt {α : Type} (encA : α → Bytes) (decA : Bytes → Option (α × Bytes))
    (l : List α) (helem : ∀ a ∈ l, ∀ r, decA (encA a ++ r) = some (a, r))
    (r : Bytes) : decListAux decA l.length (l.flatMap encA ++ r) = some (l, r) := by
  induction l with
  | nil => simp [decListAux]
  | cons a t ih =>
    have ha := helem a (List.mem_cons_self a t)
    have ht : ∀ x ∈ t, ∀ r', decA (encA x ++ r') = some (x, r') :=
      fun x hx => helem x (List.mem_cons_of_mem a hx)
    simp only [List.flatMap_cons, List.length_cons, List.append_assoc]
    simp [decListAux, ha, ih ht]

theorem list_rt {α : Type} (encA : α → Bytes) (decA : Bytes → Option (α × Bytes))
    (l : List α) (hlen : l.length < 2 ^ 64)
    (helem : ∀ a ∈ l, ∀ r, decA (encA a ++ r) = some (a, r)) (r : Bytes) :
    decList decA (encList encA l ++ r) = some (l, r) := by
  simp [encList, decList, List.append_assoc, varint_rt l.length hlen,
    listAux_rt encA decA l helem r]

theorem podsRequest_rt (p : PodsRequest) (h : p.wf = true) (r : Bytes) :
    PodsRequest.dec (PodsRequest.enc p ++ r) = some (p, r) := by
  have hc : wfOptStr p.cluster = true := by
    simp [PodsRequest.wf] at h; exact h.1
  have hn : wfOptStr p.namespace' = true := by
    simp [PodsRequest.wf] at h; exact h.2
  simp [PodsRequest.enc, PodsRequest.dec, List.append_assoc,
    optStr_rt _ hc, optStr_rt _ hn, bool_rt]

theorem envRequest_rt (e : EnvRequest) (h : e.wf = true) (r : Bytes) :
    EnvRequest.dec (EnvRequest.enc e ++ r) = some (e, r) := by
  simp only [EnvRequest.wf, Bool.and_eq_true] at h
  obtain ⟨⟨⟨⟨h1, h2⟩, h3⟩, h4⟩, h5⟩ := h
  simp [EnvRequest.enc, EnvRequest.dec, List.append_assoc,
    optStr_rt _ h1, str_rt _ h2, str_rt _ h3, optStr_rt _ h4, optStr_rt _ h5]

theorem envEntry_rt (e : EnvEntry) (h : e.wf = true) (r : Bytes) :
    EnvEntry.dec (EnvEntry.enc e ++ r) = some (e, r) := by
  simp only [EnvEntry.wf, Bool.and_eq_true] at h
  obtain ⟨h1, h2⟩ := h
  simp [EnvEntry.enc, EnvEntry.dec, List.append_assoc, str_rt _ h1, optStr_rt _ h2]

theorem podSummary_rt (p : PodSummary) (h : p.wf = true) (r : Bytes) :
    PodSummary.dec (PodSummary.enc p ++ r) = some (p, r) := by
  simp only [PodSummary.wf, Bool.and_eq_true] at h
  obtain ⟨⟨⟨⟨⟨⟨h1, h2⟩, h3⟩, h4⟩, h5⟩, h6⟩, h7⟩ := h
  simp [PodSummary.enc, PodSummary.dec, List.append_assoc,
    str_rt _ h1, str_rt _ h2, str_rt _ h3, optStr_rt _ h4, optStr_rt _ h5,
    optStr_rt _ h6, bool_rt, i32_rt _ h7]

theorem versionInfo_rt (v : VersionInfo) (h : v.wf = true) (r : Bytes) :
    VersionInfo.dec (VersionInfo.enc v ++ r) = some (v, r) := by
  simp only [VersionInfo.wf, Bool.and_eq_true] at h
  obtain ⟨⟨⟨h1, h2⟩, h3⟩, h4⟩ := h
  simp [VersionInfo.enc, VersionInfo.dec, List.append_assoc,
    str_rt _ h1, str_rt _ h2, optStr_rt _ h3, optStr_rt _ h4]

theorem request_rt (q : Request) (h : q.wf = true) (r : Bytes) :
    Request.dec (Request.enc q ++ r) = some (q, r) := by
  cases q with
  | ping => simp [Request.enc, Request.dec, varint_rt 0 (by norm_num)]
  | pods p =>
    have hp : p.wf = true := by simpa [Request.wf] using h
    simp [Request.enc, Request.dec, List.append_assoc,
      varint_rt 1 (by norm_num), podsRequest_rt p hp]
  | env e =>
    have he : e.wf = true := by simpa [Request.wf] using h
    simp [Request.enc, Request.dec, List.append_assoc,
      varint_rt 2 (by norm_num), envRequest_rt e he]
  | version => simp [Request.enc, Request.dec, varint_rt 3 (by norm_num)]

theorem response_rt (p : Response) (h : p.wf = true) (r : Bytes) :
    Response.dec (Response.enc p ++ r) = some (p, r) := by
  cases p with
  | pong => simp [Response.enc, Response.dec, varint_rt 0 (by norm_num)]
  | version v =>
    have hv : v.wf = true := by simpa [Response.wf] using h
    simp [Response.enc, Response.dec, List.append_assoc,
      varint_rt 1 (by norm_num), versionInfo_rt v hv]
  | pods l =>
    simp only [Response.wf, Bool.and_eq_true, decide_eq_true_eq,
      List.all_eq_true] at h
    simp [Response.enc, Response.dec, List.append_assoc, varint_rt 2 (by norm_num),
      list_rt PodSummary.enc PodSummary.dec l h.1
        (fun a ha r' => podSummary_rt a (h.2 a ha) r')]
  | envVars l =>
    simp only [Response.wf, Bool.and_eq_true, decide_eq_true_eq,
      List.all_eq_true] at h
    simp [Response.enc, Response.dec, List.append_assoc, varint_rt 3 (by norm_num),
      list_rt EnvEntry.enc EnvEntry.dec l h.1
        (fun a ha r' => envEntry_rt a (h.2 a ha) r')]
  | error m =>
    have hm : wfStr m = true := by simpa [Response.wf] using h
    simp [Response.enc, Response.dec, List.append_assoc,
      varint_rt 4 (by norm_num), str_rt _ hm]

theorem beBytes4_length (n : Nat) : (beBytes4 n).length = 4 := rfl

theorem beVal4_beBytes4 (n : Nat) (h : n < 2 ^ 32) : beVal4 (beBytes4 n) = n := by
  simp only [beBytes4, beVal4, List.foldl]
  omega

theorem readMessage_writeMessage {α : Type} (encA : α → Bytes)
    (decA : Bytes → Option (α × Bytes)) (m : α)
    (hc : ∀ r, decA (encA m ++ r) = some (m, r))
    (hlen : (encA m).length < 2 ^ 32) :
    readMessage decA (writeMessage encA m) = .ok (some m) := by
  have hmod : (encA m).length % 2 ^ 32 = (encA m).length := Nat.mod_eq_of_lt hlen
  have h4 : readN 4 (beBytes4 (encA m).length ++ encA m) =
      some (beBytes4 (encA m).length, encA m) :=
    readN_exact' 4 _ _ (beBytes4_length _)
  have hval : beVal4 (beBytes4 (encA m).length) = (encA m).length :=
    beVal4_beBytes4 _ hlen
  have hpay : readN (encA m).length (encA m) = some (encA m, []) := by
    have := readN_exact (encA m) []
    simpa using this
  have hdec : decA (encA m) = some (m, []) := by
    have := hc []
    simpa using this
  unfold readMessage writeMessage
  simp only [hmod, h4, hval, hpay, hdec]

/-- C6: for every well-formed `Request` and `Response` value (all string and
list lengths representable in `usize`, `restart_count` an `i32`) whose
bincode payload fits the `u32` length prefix, writing the value with
`write_message` and reading it back with `read_message` yields the original
value — including variants with all optional fields `None` and with empty
list payloads. -/
theorem wire_roundtrip :
    (∀ q : Request, q.wf = true → (Request.enc q).length < 2 ^ 32 →
      readMessage Request.dec (writeMessage Request.enc q) = .ok (some q)) ∧
    (∀ p : Response, p.wf = true → (Response.enc p).length < 2 ^ 32 →
      readMessage Response.dec (writeMessage Response.enc p) = .ok (some p)) :=
  ⟨fun q hwf hlen =>
     readMessage_writeMessage Request.enc Request.dec q (fun r => request_rt q hwf r) hlen,
   fun p hwf hlen =>
     readMessage_writeMessage Response.enc Response.dec p (fun r => response_rt p hwf r) hlen⟩

/-- Witness for `wire_roundtrip`: a `Pods` request with both optional fields
`None`, an `Env` request with all optional fields `None`, a `Pods` response
with an empty list payload, and an `Error` response, each round-tripped at a
concrete value. -/
theorem wire_roundtrip_witness :
    readMessage Request.dec
        (writeMessage Request.enc (.pods ⟨none, none, false⟩)) =
      .ok (some (.pods ⟨none, none, false⟩)) ∧
    readMessage Request.dec
        (writeMessage Request.enc (.env ⟨none, [110, 115], [112], none, none⟩)) =
      .ok (some (.env ⟨none, [110, 115], [112], none, none⟩)) ∧
    readMessage Response.dec (writeMessage Response.enc (.pods [])) =
      .ok (some (.pods [])) ∧
    readMessage Response.dec
        (writeMessage Response.enc (.envVars [⟨[65], some [49]⟩])) =
      .ok (some (.envVars [⟨[65], some [49]⟩])) :=
  ⟨wire_roundtrip.1 (.pods ⟨none, none, false⟩) (by decide) (by decide),
   wire_roundtrip.1 (.env ⟨none, [110, 115], [112], none, none⟩) (by decide) (by decide),
   wire_roundtrip.2 (.pods []) (by decide) (by decide),
   wire_roundtrip.2 (.envVars [⟨[65], some [49]⟩]) (by decide) (by decide)⟩

/-- C7 counterexample: a peer that closes the connection after sending only
2 of the 4 length-prefix bytes (stream `[0, 0]`) is reported by
`read_message` as a clean end-of-stream (`Ok(None)`), not as an error: the
`read_exact` of the prefix collapses any `UnexpectedEof` — even mid-prefix —
into `Ok(None)`. -/
theorem readMessage_partial_len_eof :
    readMessage Request.dec [0, 0] = .ok none := rfl

/-- C7 (amended): `read_message` reports end-of-stream exactly when the peer
closes before the full 4-byte length prefix has arrived (including after 1-3
bytes of it); it reports an I/O error when the peer closes after the full
length prefix but before the full payload; and once the full frame is
present the result is a message or a decode error, never end-of-stream. -/
theorem readMessage_eof_boundary {α : Type} (decA : Bytes → Option (α × Bytes))
    (s : Bytes) :
    (s.length < 4 → readMessage decA s = .ok none) ∧
    (4 ≤ s.length → s.length < 4 + beVal4 (s.take 4) →
      readMessage decA s = .error .io) ∧
    (4 ≤ s.length → 4 + beVal4 (s.take 4) ≤ s.length →
      readMessage decA s ≠ .ok none) := by
  refine ⟨?_, ?_, ?_⟩
  · intro h
    have : ¬ 4 ≤ s.length := by omega
    simp [readMessage, readN, this]
  · intro h4 hshort
    have hr : readN 4 s = some (s.take 4, s.drop 4) := by simp [readN, h4]
    have hd : ¬ beVal4 (s.take 4) ≤ s.length - 4 := by omega
    have hinner : readN (beVal4 (s.take 4)) (s.drop 4) = none := by
      simp [readN, hd]
    unfold readMessage
    simp only [hr, hinner]
  · intro h4 hfull
    have hr : readN 4 s = some (s.take 4, s.drop 4) := by simp [readN, h4]
    have hd : beVal4 (s.take 4) ≤ s.length - 4 := by omega
    have hinner : readN (beVal4 (s.take 4)) (s.drop 4) =
        some ((s.drop 4).take (beVal4 (s.take 4)), (s.drop 4).drop (beVal4 (s.take 4))) := by
      simp [readN, hd]
    unfold readMessage
    simp only [hr, hinner]
    cases hdec : decA ((s.drop 4).take (beVal4 (s.take 4))) with
    | none => simp
    | some p => simp

/-- Witness for `readMessage_eof_boundary` at concrete streams: an empty
stream (clean end-of-stream), a complete prefix announcing 5 payload bytes
with only 2 present (I/O error), and a complete 1-byte frame holding an
encoded `Ping` (a decoded message, not end-of-stream). -/
theorem readMessage_eof_boundary_witness :
    readMessage Request.dec [] = .ok none ∧
    readMessage Request.dec [0, 0, 0, 5, 9, 9] = .error .io ∧
    readMessage Request.dec [0, 0, 0, 1, 0] ≠ .ok none :=
  ⟨(readMessage_eof_boundary Request.dec []).1 (by decide),
   (readMessage_eof_boundary Request.dec [0, 0, 0, 5, 9, 9]).2.1 (by decide) (by decide),
   (readMessage_eof_boundary Request.dec [0, 0, 0, 1, 0]).2.2 (by decide) (by decide)⟩

end Wire

namespace Handler

/-- `k8s_openapi` `ObjectMeta`: the fields `handle_pods`/`handle_env` use. -/
structure ObjectMeta where
  name : Option String
  namespace' : Option String
deriving DecidableEq

/-- `k8s_openapi` `ContainerStateWaiting` (`reason`/`message`). -/
structure ContainerStateWaiting where
  reason : Option String
  message : Option String
deriving DecidableEq

/-- `k8s_openapi` `ContainerStateTerminated` (`reason`/`message`). -/
structure ContainerStateTerminated where
  reason : Option String
  message : Option String
deriving DecidableEq

/-- `k8s_openapi` `ContainerState` (`waiting`/`terminated` branches). -/
structure ContainerState where
  waiting : Option ContainerStateWaiting
  terminated : Option ContainerStateTerminated
deriving DecidableEq

/-- `k8s_openapi` `ContainerStatus` (`restart_count` is an `i32`). -/
structure ContainerStatus where
  restartCount : Int
  state : Option ContainerState
deriving DecidableEq

/-- `k8s_openapi` `PodCondition` (`type_`/`status`). -/
structure PodCondition where
  type_ : String
  status : String
deriving DecidableEq

/-- `k8s_openapi` `PodStatus`: the fields `extract_status_fields` uses. -/
structure PodStatus where
  phase : Option String
  conditions : Option (List PodCondition)
  containerStatuses : Option (List ContainerStatus)
deriving DecidableEq

/-- `k8s_openapi` `EnvVar` (name and optional plain value). -/
structure EnvVarDecl where
  name : String
  value : Option String
deriving DecidableEq

/-- `k8s_openapi` `Container`: name and declared environment variables. -/
structure Container where
  name : String
  env : Option (List EnvVarDecl)
deriving DecidableEq

/-- `k8s_openapi` `PodSpec`: the container list. -/
structure PodSpec where
  containers : List Container
deriving DecidableEq

/-- `k8s_openapi` `Pod`: metadata, optional spec, optional status. -/
structure Pod where
  metadata : ObjectMeta
  spec : Option PodSpec
  status : Option PodStatus
deriving DecidableEq

/-- `kops_protocol::PodSummary` as the handler builds it. -/
structure PodSummary where
  cluster : String
  namespace' : String
  name : String
  phase : Option String
  reason : Option String
  message : Option String
  ready : Bool
  restart_count : Int
deriving DecidableEq

/-- `extract_status_fields` of `kops_protocol/src/lib.rs`: readiness from the
`Ready`/`True` condition; restarts summed over container statuses; the
reason/message pair overwritten by each container's waiting state and then
its terminated state, in container order (last non-checked write wins, and a
`None` reason/message overwrites too, exactly as the `clone()` assignments do). -/
def extract_status_fields : Option PodStatus → Option String × Option String × Bool × Int
  | none => (none, none, false, 0)
  | some s =>
    let ready := match s.conditions with
      | some cs => cs.any (fun c => c.type_ == "Ready" && c.status == "True")
      | none => false
    let step := fun (acc : Int × Option String × Option String) (c : ContainerStatus) =>
      let acc1 := (acc.1 + c.restartCount, acc.2.1, acc.2.2)
      match c.state with
      | none => acc1
      | some st =>
        let a := match st.waiting with
          | none => acc1
          | some w => (acc1.1, w.reason, w.message)
        match st.terminated with
        | none => a
        | some t => (a.1, t.reason, t.message)
    let r := match s.containerStatuses with
      | some cs => cs.foldl step (0, none, none)
      | none => ((0 : Int), (none : Option String), (none : Option String))
    (r.2.1, r.2.2, ready, r.1)

/-- `PodSummary::from_pod`: `None` when the pod has no metadata name; the
namespace defaults to `"default"`; phase from the status; the remaining
fields from `extract_status_fields`. -/
def PodSummary.from_pod (cluster : String) (pod : Pod) : Option PodSummary :=
  match pod.metadata.name with
  | none => none
  | some name =>
    let namespace' := pod.metadata.namespace'.getD "default"
    let phase := pod.status.bind (fun s => s.phase)
    let r := extract_status_fields pod.status
    some { cluster := cluster, namespace' := namespace', name := name,
           phase := phase, reason := r.1, message := r.2.1,
           ready := r.2.2.1, restart_count := r.2.2.2 }

/-- A cluster's mirror as the handlers see it: the point-in-time snapshot
(`cs.store().state()`) of the reflector `Store<Pod>`. -/
structure ClusterState where
  pods : List Pod
deriving DecidableEq

/-- `kopsd::state::AwsSession` as `handle_login` builds it (the expiry is
the epoch-milliseconds timestamp). -/
structure AwsSession where
  account_id : String
  role_name : String
  region : Option String
  access_key_id : String
  secret_access_key : String
  session_token : String
  expires_at : Int
deriving DecidableEq

/-- Modelled from the spec: the daemon registry (§3 `DaemonRegistry`, and
the `DaemonState` fields `handler.rs` uses: the profile → session map, the
cluster → mirror map, and the default cluster name); the two `HashMap`s are
modelled as association lists. -/
structure DaemonState where
  aws_sessions : List (String × AwsSession)
  clusters : List (String × ClusterState)
  default_cluster : String

/-- `HashMap::get` on the association-list model. -/
def lookupA {α : Type} (m : List (String × α)) (k : String) : Option α :=
  (m.find? (fun p => p.1 == k)).map (fun p => p.2)

/-- `HashMap::insert` on the association-list model: overwrite the binding
if the key is present, otherwise add it. -/
def insertA {α : Type} : List (String × α) → String → α → List (String × α)
  | [], k, v => [(k, v)]
  | (k', v') :: t, k, v =>
    if k' = k then (k, v) :: t else (k', v') :: insertA t k v

/-- `kops_protocol::PodsRequest` (handler view). -/
structure PodsRequest where
  cluster : Option String
  namespace' : Option String
  failed_only : Bool
deriving DecidableEq

/-- `kops_protocol::EnvRequest` (handler view). -/
structure EnvRequest where
  cluster : Option String
  namespace' : String
  pod : String
  container : Option String
  filter_regex : Option String
deriving DecidableEq

/-- `kops_protocol::EnvEntry` (handler view). -/
structure EnvEntry where
  name : String
  value : Option String
deriving DecidableEq

/-- Modelled from the spec: `kops_protocol::LoginRequest` (declared outside
`src/`; fields per §6
`Login{name, region, account_id, role_name, access_key_id, secret_access_key, session_token, expires_at_epoch_ms}`
and their uses in `handle_login`). -/
structure LoginRequest where
  name : String
  region : Option String
  account_id : String
  role_name : String
  access_key_id : String
  secret_access_key : String
  session_token : String
  expires_at_epoch_ms : Int
deriving DecidableEq

/-- `kops_protocol::Response` as the handler produces it (handler view;
`Version` fields inlined). -/
inductive Response where
  | pong
  | version (daemon_version protocol_version : String) (git_sha build_date : Option String)
  | pods (pods : List PodSummary)
  | envVars (vars : List EnvEntry)
  | loginOk
  | error (message : String)
deriving DecidableEq

/-- Cluster-name resolution shared by `handle_pods`/`handle_env`:
`req.cluster.as_deref().unwrap_or_else(|| state.default_cluster())`. -/
def resolveCluster (st : DaemonState) : Option String → String
  | some c => c
  | none => st.default_cluster

/-- The retention predicate of `handle_pods`'s `.filter(...)`: drop the pod
when a namespace is requested and differs, or when `failed_only` is set and
the pod is neither `phase == "Failed"` nor `reason == "CrashLoopBackOff"`. -/
def podsFilter (req : PodsRequest) (p : PodSummary) : Bool :=
  (match req.namespace' with
   | some ns => p.namespace' == ns
   | none => true) &&
  (!req.failed_only || (p.phase == some "Failed" || p.reason == some "CrashLoopBackOff"))

/-- The `sort_by` comparator of `handle_pods`:
`a.namespace.cmp(&b.namespace).then(a.name.cmp(&b.name))` is not `Greater`. -/
def podLe (a b : PodSummary) : Bool :=
  decide (a.namespace' < b.namespace' ∨
    (a.namespace' = b.namespace' ∧ a.name ≤ b.name))

/-- `Handler::handle_pods`. -/
def handle_pods (st : DaemonState) (req : PodsRequest) : Response :=
  let cluster_name := resolveCluster st req.cluster
  match lookupA st.clusters cluster_name with
  | none => .error ("cluster not found: " ++ cluster_name)
  | some cluster_state =>
    let pods := ((cluster_state.pods.filterMap
        (PodSummary.from_pod cluster_name)).filter (podsFilter req)).mergeSort podLe
    .pods pods

/-- `kube::ResourceExt::name_any` as used by `handle_env`: the metadata name
or the empty string. -/
def nameAny (p : Pod) : String := p.metadata.name.getD ""

/-- The env-var collection loop of `handle_env`: for each container in
order, append its declared variables (an absent `env` contributes nothing;
the filter closure always returns `true`). -/
def collectEnvVars (spec : PodSpec) : List EnvEntry :=
  spec.containers.foldl
    (fun vars c =>
      vars ++ ((c.env.getD []).filter (fun _ => true)).map
        (fun e => { name := e.name, value := e.value }))
    []

/-- The derived `Ord` on `Option<String>`: `None` sorts before `Some`. -/
def optStrLe : Option String → Option String → Bool
  | none, _ => true
  | some _, none => false
  | some x, some y => decide (x ≤ y)

/-- The derived `Ord`-based `sort()` comparator on `EnvEntry`:
lexicographic on `(name, value)` with `None < Some`. -/
def envLe (a b : EnvEntry) : Bool :=
  decide (a.name < b.name) ||
    (a.name == b.name && optStrLe a.value b.value)

/-- `Handler::handle_env`. -/
def handle_env (st : DaemonState) (req : EnvRequest) : Response :=
  let cluster := resolveCluster st req.cluster
  match lookupA st.clusters cluster with
  | none => .error ("cluster not found: " ++ cluster)
  | some cs =>
    match cs.pods.find? (fun p =>
        p.metadata.namespace' == some req.namespace' && nameAny p == req.pod) with
    | none => .error ("pod " ++ req.namespace' ++ "/" ++ req.pod ++ " not found")
    | some pod =>
      match pod.spec with
      | none => .error "pod has no spec"
      | some spec => .envVars ((collectEnvVars spec).mergeSort envLe)

/-- The `AwsSession` that `handle_login` stores for the request (the
timestamp conversion of `expires_at_epoch_ms` kept as the raw value). -/
def sessionOfRequest (req : LoginRequest) : AwsSession :=
  { account_id := req.account_id, role_name := req.role_name,
    region := req.region, access_key_id := req.access_key_id,
    secret_access_key := req.secret_access_key,
    session_token := req.session_token,
    expires_at := req.expires_at_epoch_ms }

/-- `Handler::start_clusters_for_profile`, with the attach chain
(`sdk_config_from_session` → `create_kube_client` → `init_cluster_state`)
abstracted as the collaborator `attach`: look up the stored session for the
profile, attach the hard-coded cluster name `"eks-platform-dev"`, and on
success register the resulting mirror under that name. -/
def start_clusters_for_profile
    (attach : AwsSession → String → Except String ClusterState)
    (st : DaemonState) (profile : String) : Except String DaemonState :=
  match lookupA st.aws_sessions profile with
  | none => .error "no aws session stored for this profile"
  | some session =>
    let name := "eks-platform-dev"
    match attach session name with
    | .error e => .error e
    | .ok cluster_state =>
      .ok { st with clusters := insertA st.clusters name cluster_state }

/-- `Handler::handle_login`: store/overwrite the session under the profile
name, then synchronously start clusters for that profile; an attach failure
is reported as an `Error` that mentions the stored-session success. -/
def handle_login (attach : AwsSession → String → Except String ClusterState)
    (st : DaemonState) (req : LoginRequest) : DaemonState × Response :=
  let session := sessionOfRequest req
  let st1 := { st with aws_sessions := insertA st.aws_sessions req.name session }
  match start_clusters_for_profile attach st1 req.name with
  | .error e =>
    (st1, .error ("stored session but failed to start clusters for profile "
      ++ req.name ++ ": " ++ e))
  | .ok st2 => (st2, .loginOk)

theorem podLe_trans (a b c : PodSummary)
    (hab : podLe a b = true) (hbc : podLe b c = true) : podLe a c = true := by
  simp only [podLe, decide_eq_true_eq] at hab hbc ⊢
  rcases hab with h1 | ⟨he1, hn1⟩
  · rcases hbc with h2 | ⟨he2, hn2⟩
    · exact Or.inl (lt_trans h1 h2)
    · exact Or.inl (he2 ▸ h1)
  · rcases hbc with h2 | ⟨he2, hn2⟩
    · exact Or.inl (he1 ▸ h2)
    · exact Or.inr ⟨he1.trans he2, le_trans hn1 hn2⟩

theorem podLe_total (a b : PodSummary) : (podLe a b || podLe b a) = true := by
  simp only [podLe, Bool.or_eq_true, decide_eq_true_eq]
  rcases lt_trichotomy a.namespace' b.namespace' with h | h | h
  · exact Or.inl (Or.inl h)
  · rcases le_total a.name b.name with hn | hn
    · exact Or.inl (Or.inr ⟨h, hn⟩)
    · exact Or.inr (Or.inr ⟨h.symm, hn⟩)
  · exact Or.inr (Or.inl h)

theorem optStrLe_trans (x y z : Option String)
    (hxy : optStrLe x y = true) (hyz : optStrLe y z = true) :
    optStrLe x z = true := by
  cases x <;> cases y <;> cases z <;> simp_all [optStrLe, decide_eq_true_eq]
  exact le_trans hxy hyz

theorem optStrLe_total (x y : Option String) :
    (optStrLe x y || optStrLe y x) = true := by
  cases x <;> cases y <;> simp [optStrLe, le_total]

theorem envLe_trans (a b c : EnvEntry)
    (hab : envLe a b = true) (hbc : envLe b c = true) : envLe a c = true := by
  simp only [envLe, Bool.or_eq_true, Bool.and_eq_true, decide_eq_true_eq,
    beq_iff_eq] at hab hbc ⊢
  rcases hab with h1 | ⟨he1, hn1⟩
  · rcases hbc with h2 | ⟨he2, hn2⟩
    · exact Or.inl (lt_trans h1 h2)
    · exact Or.inl (he2 ▸ h1)
  · rcases hbc with h2 | ⟨he2, hn2⟩
    · exact Or.inl (he1 ▸ h2)
    · exact Or.inr ⟨he1.trans he2, optStrLe_trans _ _ _ hn1 hn2⟩

theorem envLe_total (a b : EnvEntry) : (envLe a b || envLe b a) = true := by
  simp only [envLe, Bool.or_eq_true, Bool.and_eq_true, decide_eq_true_eq,
    beq_iff_eq]
  rcases lt_trichotomy a.name b.name with h | h | h
  · exact Or.inl (Or.inl h)
  · have ht := optStrLe_total a.value b.value
    simp only [Bool.or_eq_true] at ht
    rcases ht with hv | hv
    · exact Or.inl (Or.inr ⟨h, hv⟩)
    · exact Or.inr (Or.inr ⟨h.symm, hv⟩)
  · exact Or.inr (Or.inl h)

/-- In an `envLe`-sorted list, names are nondecreasing. -/
theorem envLe_name_le (a b : EnvEntry) (h : envLe a b = true) :
    a.name ≤ b.name := by
  simp only [envLe, Bool.or_eq_true, Bool.and_eq_true, decide_eq_true_eq,
    beq_iff_eq] at h
  rcases h with h | ⟨he, _⟩
  · exact le_of_lt h
  · exact le_of_eq he

theorem lookupA_insertA_self {α : Type} (m : List (String × α)) (k : String)
    (v : α) : lookupA (insertA m k v) k = some v := by
  induction m with
  | nil => simp [insertA, lookupA]
  | cons p t ih =>
    rcases p with ⟨k', v'⟩
    by_cases h : k' = k
    · simp [insertA, h, lookupA]
    · simp only [insertA, if_neg h]
      simpa [lookupA, List.find?, show (k' == k) = false by simpa using h] using ih

theorem lookupA_insertA_ne {α : Type} (m : List (String × α)) (k k' : String)
    (v : α) (h : k' ≠ k) : lookupA (insertA m k v) k' = lookupA m k' := by
  induction m with
  | nil =>
    simp [insertA, lookupA, List.find?, show (k == k') = false by simpa using (Ne.symm h)]
  | cons p t ih =>
    rcases p with ⟨k0, v0⟩
    by_cases h0 : k0 = k
    · subst h0
      simp [insertA, lookupA, List.find?,
        show (k0 == k') = false by simpa using fun e => h e.symm]
    · simp only [insertA, if_neg h0]
      by_cases h1 : k0 = k'
      · subst h1
        simp [lookupA, List.find?]
      · simpa [lookupA, List.find?, show (k0 == k') = false by simpa using h1]
          using ih

theorem keys_insertA {α : Type} (m : List (String × α)) (k : String) (v : α) :
    (insertA m k v).map Prod.fst =
      if (m.map Prod.fst).contains k then m.map Prod.fst
      else m.map Prod.fst ++ [k] := by
  induction m with
  | nil => simp [insertA]
  | cons p t ih =>
    rcases p with ⟨k', v'⟩
    by_cases h : k' = k
    · subst h
      simp [insertA]
    · simp only [insertA, if_neg h, List.map_cons, List.contains_cons]
      rw [show (k == k') = false by simpa using (Ne.symm h)]
      simp only [Bool.false_or]
      by_cases hc : (t.map Prod.fst).contains k
      · rw [if_pos hc] at ih
        rw [if_pos hc, ih]
      · rw [if_neg hc] at ih
        rw [if_neg hc, ih]
        simp

/-- C4: `handle_pods` resolves the cluster name (explicit field, else the
default cluster); an unknown cluster yields an `Error` whose message
contains the cluster name; a known cluster yields the pods of the mirror
snapshot projected by `PodSummary::from_pod`, kept only when in the
requested namespace (if any) and, under `failed_only`, only when
`phase == "Failed"` or `reason == "CrashLoopBackOff"`, sorted by
`(namespace, name)`. -/
theorem handle_pods_spec (st : DaemonState) (req : PodsRequest) :
    (lookupA st.clusters (resolveCluster st req.cluster) = none →
      ∃ msg, handle_pods st req = .error msg ∧
        ∃ pre suf, msg = pre ++ resolveCluster st req.cluster ++ suf) ∧
    (∀ cs, lookupA st.clusters (resolveCluster st req.cluster) = some cs →
      ∃ l, handle_pods st req = .pods l ∧
        List.Pairwise (fun a b => podLe a b = true) l ∧
        l.Perm ((cs.pods.filterMap
          (PodSummary.from_pod (resolveCluster st req.cluster))).filter
            (podsFilter req)) ∧
        (∀ x, x ∈ l ↔ ∃ p, p ∈ cs.pods ∧
          PodSummary.from_pod (resolveCluster st req.cluster) p = some x ∧
          podsFilter req x = true)) := by
  constructor
  · intro h
    refine ⟨"cluster not found: " ++ resolveCluster st req.cluster, ?_,
      "cluster not found: ", "", by simp⟩
    simp only [handle_pods, h]
  · intro cs h
    refine ⟨((cs.pods.filterMap
        (PodSummary.from_pod (resolveCluster st req.cluster))).filter
          (podsFilter req)).mergeSort podLe, ?_, ?_, ?_, ?_⟩
    · simp only [handle_pods, h]
    · exact List.sorted_mergeSort podLe_trans podLe_total _
    · exact List.mergeSort_perm _ _
    · intro x
      rw [(List.mergeSort_perm _ podLe).mem_iff]
      simp only [List.mem_filter, List.mem_filterMap]
      constructor
      · rintro ⟨⟨p, hp, hfp⟩, hflt⟩
        exact ⟨p, hp, hfp, hflt⟩
      · rintro ⟨p, hp, hfp, hflt⟩
        exact ⟨⟨p, hp, hfp⟩, hflt⟩

/-- The concrete pod `observability/a`, `phase = Running`. -/
def podA : Pod :=
  { metadata := { name := some "a", namespace' := some "observability" },
    spec := none,
    status := some { phase := some "Running", conditions := none,
                     containerStatuses := none } }

/-- The concrete pod `kube-system/b`, no status. -/
def podB : Pod :=
  { metadata := { name := some "b", namespace' := some "kube-system" },
    spec := none, status := none }

/-- The demo mirror snapshot holding `podA` and `podB`. -/
def demoCluster : ClusterState := ⟨[podA, podB]⟩

/-- A registry with one attached cluster `"c"` mirroring `podA`/`podB`. -/
def demoState : DaemonState :=
  { aws_sessions := [], clusters := [("c", demoCluster)],
    default_cluster := "c" }

/-- Witness for `handle_pods_spec`: an unattached cluster name yields an
error mentioning it, and a namespace-filtered query against the attached
demo cluster yields a sorted, filtered projection. -/
theorem handle_pods_spec_witness :
    (∃ msg, handle_pods demoState ⟨some "never-attached", none, false⟩ = .error msg ∧
      ∃ pre suf, msg = pre ++ resolveCluster demoState (some "never-attached") ++ suf) ∧
    (∃ l, handle_pods demoState ⟨none, some "observability", false⟩ = .pods l ∧
      List.Pairwise (fun a b => podLe a b = true) l ∧
      l.Perm ((demoCluster.pods.filterMap
        (PodSummary.from_pod (resolveCluster demoState none))).filter
          (podsFilter ⟨none, some "observability", false⟩)) ∧
      (∀ x, x ∈ l ↔ ∃ p, p ∈ demoCluster.pods ∧
        PodSummary.from_pod (resolveCluster demoState none) p = some x ∧
        podsFilter ⟨none, some "observability", false⟩ x = true)) :=
  ⟨(handle_pods_spec demoState ⟨some "never-attached", none, false⟩).1 (by decide),
   (handle_pods_spec demoState ⟨none, some "observability", false⟩).2
     demoCluster (by decide)⟩

theorem foldl_append_flatMap (f : Container → List EnvEntry) (l : List Container) :
    ∀ init, l.foldl (fun vars c => vars ++ f c) init = init ++ l.flatMap f := by
  induction l with
  | nil => intro init; simp
  | cons c t ih => intro init; simp [ih, List.append_assoc]

theorem collectEnvVars_eq (sp : PodSpec) :
    collectEnvVars sp = sp.containers.flatMap
      (fun c => (c.env.getD []).map (fun e => { name := e.name, value := e.value })) := by
  unfold collectEnvVars
  rw [foldl_append_flatMap]
  simp [List.filter_true]

/-- A pod present in the mirror whose `spec` is absent. -/
def specLessPod : Pod :=
  { metadata := { name := some "p", namespace' := some "ns" },
    spec := none, status := none }

/-- A registry whose default cluster `"c"` mirrors only `specLessPod`. -/
def specLessState : DaemonState :=
  { aws_sessions := [], clusters := [("c", ⟨[specLessPod]⟩)],
    default_cluster := "c" }

/-- C5 counterexample: the pod `ns/p` is present in the mirror snapshot (the
handler's `find?` locates it), yet `handle_env` answers
`Error("pod has no spec")` — not an (empty) environment list — because the
pod's `spec` is `None`. -/
theorem handle_env_no_spec_cex :
    ([specLessPod].find? (fun p =>
        p.metadata.namespace' == some "ns" && nameAny p == "p") = some specLessPod) ∧
    handle_env specLessState ⟨none, "ns", "p", none, none⟩ = .error "pod has no spec" ∧
    handle_env specLessState ⟨none, "ns", "p", none, none⟩ ≠ .envVars [] := by
  refine ⟨by decide, by decide, by decide⟩

/-- C5 (amended): for an `Env` request whose resolved cluster is attached
and whose `(namespace, pod)` pair is found in the mirror snapshot: when the
pod has a spec, the handler returns the name/value pairs declared across all
its containers, sorted by name (ties broken by value), with zero containers
or no declared variables yielding an empty list; when the pod has no spec it
returns `Error("pod has no spec")`; and the `container`/`filter_regex`
request fields never affect the result. -/
theorem handle_env_spec (st : DaemonState) (req : EnvRequest)
    (cs : ClusterState) (pod : Pod)
    (hc : lookupA st.clusters (resolveCluster st req.cluster) = some cs)
    (hp : cs.pods.find? (fun p =>
        p.metadata.namespace' == some req.namespace' && nameAny p == req.pod) =
      some pod) :
    (∀ sp, pod.spec = some sp →
      ∃ l, handle_env st req = .envVars l ∧
        List.Pairwise (fun a b => envLe a b = true) l ∧
        List.Pairwise (fun a b => a.name ≤ b.name) l ∧
        l.Perm (sp.containers.flatMap
          (fun c => (c.env.getD []).map (fun e => { name := e.name, value := e.value }))) ∧
        (sp.containers = [] → l = [])) ∧
    (pod.spec = none → handle_env st req = .error "pod has no spec") ∧
    (∀ c f, handle_env st
        { cluster := req.cluster, namespace' := req.namespace', pod := req.pod,
          container := c, filter_regex := f } = handle_env st req) := by
  refine ⟨?_, ?_, ?_⟩
  · intro sp hsp
    have e : handle_env st req = .envVars ((collectEnvVars sp).mergeSort envLe) := by
      simp only [handle_env, hc, hp, hsp]
    refine ⟨_, e, List.sorted_mergeSort envLe_trans envLe_total _, ?_, ?_, ?_⟩
    · exact (List.sorted_mergeSort envLe_trans envLe_total _).imp
        (fun h => envLe_name_le _ _ h)
    · exact collectEnvVars_eq sp ▸ List.mergeSort_perm _ _
    · intro hnil
      have hz : collectEnvVars sp = [] := by simp [collectEnvVars, hnil]
      rw [hz]
      exact List.mergeSort_nil
  · intro hnone
    simp only [handle_env, hc, hp, hnone]
  · intro c f
    rfl

/-- The pod spec of scenario D: two containers declaring `A=1` and `B=2`. -/
def envSpecD : PodSpec :=
  ⟨[{ name := "c1", env := some [{ name := "A", value := some "1" }] },
    { name := "c2", env := some [{ name := "B", value := some "2" }] }]⟩

/-- The scenario-D pod `ns/web` carrying `envSpecD`. -/
def envPodD : Pod :=
  { metadata := { name := some "web", namespace' := some "ns" },
    spec := some envSpecD, status := none }

/-- The scenario-D mirror snapshot. -/
def envClusterD : ClusterState := ⟨[envPodD]⟩

/-- A registry whose default cluster `"c"` mirrors `envPodD`. -/
def envStateD : DaemonState :=
  { aws_sessions := [], clusters := [("c", envClusterD)],
    default_cluster := "c" }

/-- Witness for `handle_env_spec` at the scenario-D registry, with an
(ignored) `container` field and `filter_regex` set. -/
theorem handle_env_spec_witness :
    ∃ l, handle_env envStateD ⟨none, "ns", "web", some "c9", some "Z.*"⟩ = .envVars l ∧
      List.Pairwise (fun a b => envLe a b = true) l ∧
      List.Pairwise (fun a b => a.name ≤ b.name) l ∧
      l.Perm (envSpecD.containers.flatMap
        (fun c => (c.env.getD []).map (fun e => { name := e.name, value := e.value }))) ∧
      (envSpecD.containers = [] → l = []) :=
  (handle_env_spec envStateD ⟨none, "ns", "web", some "c9", some "Z.*"⟩
    envClusterD envPodD (by decide) (by decide)).1 envSpecD rfl

/-- An attach collaborator that always succeeds with an empty mirror. -/
def attachOk : AwsSession → String → Except String ClusterState :=
  fun _ _ => .ok ⟨[]⟩

/-- A concrete login request none of whose fields names `"eks-platform-dev"`. -/
def loginReqA : LoginRequest :=
  { name := "team-a", region := some "us-east-1",
    account_id := "111111111111", role_name := "dev",
    access_key_id := "AKIAEXAMPLE", secret_access_key := "s3cr3t",
    session_token := "tok", expires_at_epoch_ms := 1700000000000 }

/-- C8 counterexample: a successful login does attach exactly one cluster
mirror, but always under the hard-coded identity `"eks-platform-dev"`: for
the concrete request `loginReqA` — no field of which equals
`"eks-platform-dev"` — the registry afterwards holds exactly the key
`"eks-platform-dev"`, so the registered identity cannot match anything the
login requested. -/
theorem handle_login_fixed_name_cex :
    (handle_login attachOk ⟨[], [], "d"⟩ loginReqA).2 = .loginOk ∧
    ((handle_login attachOk ⟨[], [], "d"⟩ loginReqA).1.clusters.map Prod.fst =
      ["eks-platform-dev"]) ∧
    "eks-platform-dev" ∉ [loginReqA.name, loginReqA.account_id,
      loginReqA.role_name, loginReqA.access_key_id,
      loginReqA.secret_access_key, loginReqA.session_token] ∧
    loginReqA.region ≠ some "eks-platform-dev" := by
  refine ⟨by decide, by decide, by decide, by decide⟩

/-- C8 (amended): for every login request whose attach step succeeds,
`handle_login` stores the session under the request's profile name, replies
`LoginOk`, and registers exactly one cluster mirror — always under the
hard-coded cluster identity `"eks-platform-dev"` (the login request carries
no cluster identity): that key maps to the attached mirror, every other key
is untouched, and the key set grows by exactly that one name (if new). -/
theorem handle_login_registers_one
    (attach : AwsSession → String → Except String ClusterState)
    (st : DaemonState) (req : LoginRequest) (cs : ClusterState)
    (h : attach (sessionOfRequest req) "eks-platform-dev" = .ok cs) :
    ∃ st', handle_login attach st req = (st', .loginOk) ∧
      lookupA st'.clusters "eks-platform-dev" = some cs ∧
      (∀ k, k ≠ "eks-platform-dev" →
        lookupA st'.clusters k = lookupA st.clusters k) ∧
      (st'.clusters.map Prod.fst =
        if (st.clusters.map Prod.fst).contains "eks-platform-dev"
        then st.clusters.map Prod.fst
        else st.clusters.map Prod.fst ++ ["eks-platform-dev"]) ∧
      lookupA st'.aws_sessions req.name = some (sessionOfRequest req) := by
  have hsess : lookupA (insertA st.aws_sessions req.name (sessionOfRequest req))
      req.name = some (sessionOfRequest req) :=
    lookupA_insertA_self _ _ _
  have e : handle_login attach st req =
      ({ aws_sessions := insertA st.aws_sessions req.name (sessionOfRequest req),
         clusters := insertA st.clusters "eks-platform-dev" cs,
         default_cluster := st.default_cluster }, .loginOk) := by
    simp only [handle_login, start_clusters_for_profile, hsess, h]
  refine ⟨_, e, ?_, ?_, ?_, ?_⟩
  · exact lookupA_insertA_self _ _ _
  · intro k hk
    exact lookupA_insertA_ne _ _ _ _ hk
  · exact keys_insertA _ _ _
  · exact hsess

/-- Witness for `handle_login_registers_one` at the concrete request
`loginReqA` against a registry already holding an unrelated cluster. -/
theorem handle_login_registers_one_witness :
    ∃ st', handle_login attachOk
        ⟨[], [("other", ⟨[]⟩)], "other"⟩ loginReqA = (st', .loginOk) ∧
      lookupA st'.clusters "eks-platform-dev" = some ⟨[]⟩ ∧
      (∀ k, k ≠ "eks-platform-dev" →
        lookupA st'.clusters k =
          lookupA ([("other", (⟨[]⟩ : ClusterState))]) k) ∧
      (st'.clusters.map Prod.fst =
        if (["other"].contains "eks-platform-dev")
        then ["other"] else ["other"] ++ ["eks-platform-dev"]) ∧
      lookupA st'.aws_sessions loginReqA.name =
        some (sessionOfRequest loginReqA) :=
  handle_login_registers_one attachOk
    ⟨[], [("other", ⟨[]⟩)], "other"⟩ loginReqA ⟨[]⟩ rfl

end Handler
